import Mathlib

/-!
Verification development for the OxidizeML reverse-mode autodiff core
(crates/oxidize-ml-autodiff: graph.rs, variable.rs, backward.rs) over the
tensor contract of crates/oxidize-ml-core (tensor.rs, shape.rs).

Scalars (Rust f64) are modelled as rationals; the transcendental functions
of the tensor contract (exp, ln, tanh and the real power function), which
the autodiff core consumes as a black box, are parameters of the embedding
(structure RealOps), so every theorem quantifies over them.
-/

namespace OxML

/-!
f64 scalar arithmetic is modelled by exact rational arithmetic. The
standard `Rat` operations are `@[irreducible]`, so the embedding uses the
following kernel-computable forms, each proved equal to the corresponding
field operation on `ℚ` (`fadd_eq` etc. below).
-/

/-- Exact rational addition in kernel-computable form (equals `x + y`). -/
def fadd (x y : ℚ) : ℚ := Rat.divInt (x.num * y.den + y.num * x.den) (x.den * y.den)

/-- Exact rational subtraction in kernel-computable form (equals `x - y`). -/
def fsub (x y : ℚ) : ℚ := Rat.divInt (x.num * y.den - y.num * x.den) (x.den * y.den)

/-- Exact rational multiplication in kernel-computable form (equals `x * y`). -/
def fmul (x y : ℚ) : ℚ := Rat.divInt (x.num * y.num) (x.den * y.den)

/-- Exact rational division in kernel-computable form (equals `x / y`,
with the `ℚ` convention `x / 0 = 0`). -/
def fdiv (x y : ℚ) : ℚ := Rat.divInt (x.num * y.den) (x.den * y.num)

/-- Sum of a list of rationals (equals `List.sum`). -/
def qsum (l : List ℚ) : ℚ := l.foldr fadd 0

/-- A tensor shape: the `dims` vector of `Shape` (shape.rs). -/
abbrev Sh := List Nat

/-- `Shape::numel` (shape.rs): 1 for the empty (scalar) shape, else the
product of the dims. -/
def numelS (dims : Sh) : Nat :=
  if dims.isEmpty then 1 else dims.prod

/-- `Shape::strides` (shape.rs): row-major strides,
strides[i] = product of dims[i+1..]. -/
def stridesS : Sh → List Nat
  | [] => []
  | _ :: ds => ds.prod :: stridesS ds

/-- `Shape::broadcast_shape` (shape.rs): NumPy-style broadcast of two
shapes, aligned from the trailing end; `none` models the BroadcastError. -/
def broadcastShape (a b : Sh) : Option Sh :=
  let m := max a.length b.length
  let dims := (List.range m).map (fun i =>
    let da := if i < a.length then a.getD (a.length - 1 - i) 0 else 1
    let db := if i < b.length then b.getD (b.length - 1 - i) 0 else 1
    if da = db then some da
    else if da = 1 then some db
    else if db = 1 then some da
    else none)
  if dims.all Option.isSome then some ((dims.map (fun o => o.getD 0)).reverse)
  else none

/-- `Tensor<f64>` (tensor.rs): flat row-major data plus a shape. -/
structure Tensor where
  data : List ℚ
  shape : Sh
deriving DecidableEq

namespace Tensor

/-- `Tensor::new` (tensor.rs): fails when the data length does not match
the shape's element count. -/
def new (data : List ℚ) (shape : Sh) : Option Tensor :=
  if data.length ≠ numelS shape then none else some ⟨data, shape⟩

/-- `Tensor::scalar` (tensor.rs): a 0-d tensor holding one value. -/
def scalar (v : ℚ) : Tensor := ⟨[v], []⟩

/-- `Tensor::ones` (tensor.rs). -/
def ones (shape : Sh) : Tensor := ⟨List.replicate (numelS shape) 1, shape⟩

/-- `Tensor::full` (tensor.rs). -/
def full (shape : Sh) (v : ℚ) : Tensor := ⟨List.replicate (numelS shape) v, shape⟩

/-- `Tensor::shape_vec` (tensor.rs). -/
def shape_vec (t : Tensor) : Sh := t.shape

/-- `Tensor::ndim` (tensor.rs). -/
def ndim (t : Tensor) : Nat := t.shape.length

/-- `Tensor::numel` (tensor.rs): the length of the flat data vector. -/
def numel (t : Tensor) : Nat := t.data.length

/-- `Tensor::item` (tensor.rs): the single element of a 1-element tensor;
`none` models the InvalidOperation error. -/
def item (t : Tensor) : Option ℚ :=
  if t.data.length = 1 then some (t.data.getD 0 0) else none

/-- `Tensor::apply` (tensor.rs): elementwise map, shape preserved. -/
def apply (t : Tensor) (f : ℚ → ℚ) : Tensor := ⟨t.data.map f, t.shape⟩

/-- `Tensor::mul_scalar` (tensor.rs). -/
def mul_scalar (t : Tensor) (s : ℚ) : Tensor := t.apply (fun x => fmul x s)

/-- `Tensor::add_scalar` (tensor.rs). -/
def add_scalar (t : Tensor) (s : ℚ) : Tensor := t.apply (fun x => fadd x s)

/-- `Tensor::relu` (tensor.rs): elementwise max(x, 0). -/
def relu (t : Tensor) : Tensor := t.apply (fun x => max x 0)

/-- `Tensor::sum_all` (tensor.rs). -/
def sum_all (t : Tensor) : ℚ := qsum t.data

/-- `Tensor::mean_all` (tensor.rs). -/
def mean_all (t : Tensor) : ℚ := fdiv t.sum_all (t.numel : ℚ)

/-- `Tensor::reshape` (tensor.rs): same data, new shape; fails when the
element counts differ. -/
def reshape (t : Tensor) (ns : Sh) : Option Tensor :=
  if t.numel ≠ numelS ns then none else some ⟨t.data, ns⟩

/-- `Tensor::unsqueeze` (tensor.rs): insert a size-1 axis. -/
def unsqueeze (t : Tensor) (axis : Nat) : Option Tensor :=
  if axis > t.shape.length then none
  else some ⟨t.data, t.shape.insertIdx axis 1⟩

/-- `Tensor::sum_axis` (tensor.rs): sum along one axis, collapsing it
(re-inserting a single size-1 dim when the result would be 0-d). -/
def sum_axis (t : Tensor) (axis : Nat) : Option Tensor :=
  let dims := t.shape
  if axis ≥ dims.length then none
  else
    let outer := (dims.take axis).prod
    let axis_size := dims.getD axis 0
    let inner := (dims.drop (axis + 1)).prod
    let nd0 := dims.eraseIdx axis
    let new_dims := if nd0.isEmpty then [1] else nd0
    let result := (List.range (outer * inner)).map (fun dst =>
      let o := dst / inner
      let i := dst % inner
      qsum ((List.range axis_size).map (fun a =>
        t.data.getD (o * axis_size * inner + a * inner + i) 0)))
    Tensor.new result new_dims

/-- `Tensor::broadcast_binary_op` (tensor.rs): elementwise binary op with
NumPy broadcasting; fast path for equal shapes. Flat-index offsets follow
the stride arithmetic of the source. -/
def broadcastBinaryOp (a b : Tensor) (op : ℚ → ℚ → ℚ) : Option Tensor :=
  if a.shape = b.shape then
    some ⟨List.zipWith op a.data b.data, a.shape⟩
  else
    match broadcastShape a.shape b.shape with
    | none => none
    | some outShape =>
      let outStrides := stridesS outShape
      let aStrides := stridesS a.shape
      let bStrides := stridesS b.shape
      let nd := outShape.length
      let data := (List.range (numelS outShape)).map (fun flat =>
        let st := (List.range nd).foldl (fun (st : Nat × Nat × Nat) d =>
          let os := outStrides.getD d 1
          let idx := st.1 / os
          let rem := st.1 % os
          let aOff :=
            if d + a.shape.length ≥ nd then
              let ad := d + a.shape.length - nd
              if a.shape.getD ad 0 > 1 then st.2.1 + idx * aStrides.getD ad 0
              else st.2.1
            else st.2.1
          let bOff :=
            if d + b.shape.length ≥ nd then
              let bd := d + b.shape.length - nd
              if b.shape.getD bd 0 > 1 then st.2.2 + idx * bStrides.getD bd 0
              else st.2.2
            else st.2.2
          (rem, aOff, bOff)) (flat, 0, 0)
        op (a.data.getD st.2.1 0) (b.data.getD st.2.2 0))
      some ⟨data, outShape⟩

/-- `Tensor::add` (tensor.rs). -/
def add (a b : Tensor) : Option Tensor := broadcastBinaryOp a b fadd

/-- `Tensor::sub` (tensor.rs). -/
def sub (a b : Tensor) : Option Tensor := broadcastBinaryOp a b fsub

/-- `Tensor::mul` (tensor.rs). -/
def mul (a b : Tensor) : Option Tensor := broadcastBinaryOp a b fmul

/-- `Tensor::div` (tensor.rs); rational division (division by zero yields 0
where f64 would yield an infinity — no claim depends on that case). -/
def div (a b : Tensor) : Option Tensor := broadcastBinaryOp a b fdiv

/-- `Tensor::t` (tensor.rs): transpose the last two dims (plain or
batched); fails on rank < 2. -/
def t (x : Tensor) : Option Tensor :=
  if x.ndim < 2 then none
  else
    let dims := x.shape
    let rows := dims.getD (dims.length - 2) 0
    let cols := dims.getD (dims.length - 1) 0
    let tShape := dims.take (dims.length - 2) ++ [cols, rows]
    if x.ndim = 2 then
      let data := (List.range (cols * rows)).map (fun c =>
        let j := c / rows
        let i := c % rows
        x.data.getD (i * cols + j) 0)
      some ⟨data, tShape⟩
    else
      let batch := (dims.take (dims.length - 2)).prod
      let matSize := rows * cols
      let data := (List.range (batch * matSize)).map (fun c0 =>
        let b := c0 / matSize
        let c := c0 % matSize
        let j := c / rows
        let i := c % rows
        x.data.getD (b * matSize + i * cols + j) 0)
      some ⟨data, tShape⟩

/-- `Tensor::matmul` (tensor.rs): 2-D and batched matrix product; fails on
rank < 2 or mismatched inner dims. -/
def matmul (a b : Tensor) : Option Tensor :=
  if a.ndim < 2 ∨ b.ndim < 2 then none
  else
    let ad := a.shape
    let bd := b.shape
    let m := ad.getD (ad.length - 2) 0
    let k := ad.getD (ad.length - 1) 0
    let k2 := bd.getD (bd.length - 2) 0
    let n := bd.getD (bd.length - 1) 0
    if k ≠ k2 then none
    else if a.ndim = 2 ∧ b.ndim = 2 then
      let data := (List.range (m * n)).map (fun c =>
        let i := c / n
        let j := c % n
        qsum ((List.range k).map (fun p =>
          fmul (a.data.getD (i * k + p) 0) (b.data.getD (p * n + j) 0))))
      Tensor.new data [m, n]
    else
      let batchA := (ad.take (ad.length - 2)).prod
      let batchB := (bd.take (bd.length - 2)).prod
      let batch := max batchA batchB
      let aMat := m * k
      let bMat := k * n
      let cMat := m * n
      let data := (List.range (batch * cMat)).map (fun c0 =>
        let bIdx := c0 / cMat
        let c := c0 % cMat
        let i := c / n
        let j := c % n
        let aOff := if batchA = 1 then 0 else bIdx * aMat
        let bOff := if batchB = 1 then 0 else bIdx * bMat
        qsum ((List.range k).map (fun p =>
          fmul (a.data.getD (aOff + i * k + p) 0) (b.data.getD (bOff + p * n + j) 0))))
      let outShape :=
        (if batchA > batchB then ad.take (ad.length - 2) else bd.take (bd.length - 2))
          ++ [m, n]
      Tensor.new data outShape

end Tensor

/-- The transcendental scalar functions of the tensor contract (f64 exp,
ln, tanh and the real power function), consumed as a black box by the
autodiff core; every theorem quantifies over an arbitrary choice. -/
structure RealOps where
  rexp : ℚ → ℚ
  rln : ℚ → ℚ
  rtanh : ℚ → ℚ
  rpowf : ℚ → ℚ → ℚ

/-- A concrete (all-zero) instantiation of the black-box scalar functions,
used by witnesses; no claim depends on their values. -/
def roZ : RealOps := ⟨fun _ => 0, fun _ => 0, fun _ => 0, fun _ _ => 0⟩

namespace Tensor

/-- `Tensor::exp` (tensor.rs), over the black-box scalar exp. -/
def texp (ro : RealOps) (x : Tensor) : Tensor := x.apply ro.rexp

/-- `Tensor::ln` (tensor.rs). -/
def tln (ro : RealOps) (x : Tensor) : Tensor := x.apply ro.rln

/-- `Tensor::tanh_elem` (tensor.rs). -/
def tanh_elem (ro : RealOps) (x : Tensor) : Tensor := x.apply ro.rtanh

/-- `Tensor::sigmoid` (tensor.rs): 1 / (1 + exp(-x)) elementwise. -/
def sigmoid (ro : RealOps) (x : Tensor) : Tensor :=
  x.apply (fun v => fdiv 1 (fadd 1 (ro.rexp (-v))))

/-- `Tensor::powf` (tensor.rs), over the black-box power function. -/
def powf (ro : RealOps) (x : Tensor) (n : ℚ) : Tensor :=
  x.apply (fun v => ro.rpowf v n)

end Tensor

/-- `Op` (graph.rs): the operation that produced a node, carrying operand
NodeIds (as plain naturals) and scalar parameters. -/
inductive Op where
  | Leaf : Op
  | Add : Nat → Nat → Op
  | Sub : Nat → Nat → Op
  | Mul : Nat → Nat → Op
  | Div : Nat → Nat → Op
  | MatMul : Nat → Nat → Op
  | Neg : Nat → Op
  | Exp : Nat → Op
  | Ln : Nat → Op
  | Pow : Nat → ℚ → Op
  | Relu : Nat → Op
  | Sigmoid : Nat → Op
  | Tanh : Nat → Op
  | SumAll : Nat → Op
  | MeanAll : Nat → Op
  | Transpose : Nat → Op
  | MulScalar : Nat → ℚ → Op
  | AddScalar : Nat → ℚ → Op
deriving DecidableEq

/-- The operand NodeIds carried by an operation tag. -/
def opOperands : Op → List Nat
  | .Leaf => []
  | .Add a b => [a, b]
  | .Sub a b => [a, b]
  | .Mul a b => [a, b]
  | .Div a b => [a, b]
  | .MatMul a b => [a, b]
  | .Neg a => [a]
  | .Exp a => [a]
  | .Ln a => [a]
  | .Pow a _ => [a]
  | .Relu a => [a]
  | .Sigmoid a => [a]
  | .Tanh a => [a]
  | .SumAll a => [a]
  | .MeanAll a => [a]
  | .Transpose a => [a]
  | .MulScalar a _ => [a]
  | .AddScalar a _ => [a]

/-- `Node` (graph.rs). -/
structure Node where
  id : Nat
  op : Op
  shape : Sh
  value : Tensor
  requires_grad : Bool
deriving DecidableEq

/-- `Graph` (graph.rs): the append-only arena of nodes. -/
structure Graph where
  nodes : List Node
deriving DecidableEq

namespace Graph

/-- `Graph::new` (graph.rs). -/
def new : Graph := ⟨[]⟩

/-- `Graph::len` (graph.rs). -/
def len (g : Graph) : Nat := g.nodes.length

/-- `Graph::add_node` (graph.rs): append a node with the next sequential
id, capturing the value's shape; returns the new graph and the id. -/
def addNode (g : Graph) (op : Op) (value : Tensor) (rg : Bool) : Graph × Nat :=
  let id := g.nodes.length
  (⟨g.nodes ++ [⟨id, op, value.shape, value, rg⟩]⟩, id)

/-- `Graph::get` (graph.rs) indexes `self.nodes[id.0]`; `none` models the
out-of-range panic. -/
def get? (g : Graph) (i : Nat) : Option Node := g.nodes.get? i

end Graph

/-- Operand validity: every operand id carried by the tag is below `n`. -/
def opValid (op : Op) (n : Nat) : Prop := ∀ x ∈ opOperands op, x < n

instance (op : Op) (n : Nat) : Decidable (opValid op n) :=
  List.decidableBAll _ _

/-- The tape invariant (graph.rs / spec §3): the node stored at index `i`
carries id `i`, and every operand id in its tag is strictly below `i`. -/
def wellFormed (g : Graph) : Prop :=
  ∀ i n, g.get? i = some n → n.id = i ∧ opValid n.op i

/-- `Variable` (variable.rs): a node id paired with a cached copy of the
node's tensor value. -/
structure Variable where
  node_id : Nat
  data : Tensor
deriving DecidableEq

namespace Variable

/-- `Variable::new` (variable.rs): record a leaf node. -/
def new (g : Graph) (data : Tensor) (rg : Bool) : Graph × Variable :=
  let p := g.addNode Op.Leaf data rg
  (p.1, ⟨p.2, data⟩)

/-- `Variable::param` (variable.rs). -/
def param (g : Graph) (data : Tensor) : Graph × Variable := new g data true

/-- `Variable::input` (variable.rs). -/
def input (g : Graph) (data : Tensor) : Graph × Variable := new g data false

/-- `Variable::add` (variable.rs): forward result via the tensor contract,
then record an `Add` node. A `none` second component models the propagated
shape error (the `expect` panic): the graph is returned untouched, exactly
as the Rust unwinding leaves the thread-local graph. -/
def add (g : Graph) (a b : Variable) : Graph × Option Variable :=
  match Tensor.add a.data b.data with
  | none => (g, none)
  | some result =>
    let p := g.addNode (Op.Add a.node_id b.node_id) result true
    (p.1, some ⟨p.2, result⟩)

/-- `Variable::sub` (variable.rs). -/
def sub (g : Graph) (a b : Variable) : Graph × Option Variable :=
  match Tensor.sub a.data b.data with
  | none => (g, none)
  | some result =>
    let p := g.addNode (Op.Sub a.node_id b.node_id) result true
    (p.1, some ⟨p.2, result⟩)

/-- `Variable::mul` (variable.rs). -/
def mul (g : Graph) (a b : Variable) : Graph × Option Variable :=
  match Tensor.mul a.data b.data with
  | none => (g, none)
  | some result =>
    let p := g.addNode (Op.Mul a.node_id b.node_id) result true
    (p.1, some ⟨p.2, result⟩)

/-- `Variable::div` (variable.rs). -/
def div (g : Graph) (a b : Variable) : Graph × Option Variable :=
  match Tensor.div a.data b.data with
  | none => (g, none)
  | some result =>
    let p := g.addNode (Op.Div a.node_id b.node_id) result true
    (p.1, some ⟨p.2, result⟩)

/-- `Variable::matmul` (variable.rs). -/
def matmul (g : Graph) (a b : Variable) : Graph × Option Variable :=
  match Tensor.matmul a.data b.data with
  | none => (g, none)
  | some result =>
    let p := g.addNode (Op.MatMul a.node_id b.node_id) result true
    (p.1, some ⟨p.2, result⟩)

/-- `Variable::neg` (variable.rs): `mul_scalar(NEG_ONE)`. -/
def neg (g : Graph) (a : Variable) : Graph × Variable :=
  let result := a.data.mul_scalar (-1)
  let p := g.addNode (Op.Neg a.node_id) result true
  (p.1, ⟨p.2, result⟩)

/-- `Variable::exp` (variable.rs). -/
def vexp (ro : RealOps) (g : Graph) (a : Variable) : Graph × Variable :=
  let result := a.data.texp ro
  let p := g.addNode (Op.Exp a.node_id) result true
  (p.1, ⟨p.2, result⟩)

/-- `Variable::ln` (variable.rs). -/
def vln (ro : RealOps) (g : Graph) (a : Variable) : Graph × Variable :=
  let result := a.data.tln ro
  let p := g.addNode (Op.Ln a.node_id) result true
  (p.1, ⟨p.2, result⟩)

/-- `Variable::relu` (variable.rs). -/
def relu (g : Graph) (a : Variable) : Graph × Variable :=
  let result := a.data.relu
  let p := g.addNode (Op.Relu a.node_id) result true
  (p.1, ⟨p.2, result⟩)

/-- `Variable::sigmoid` (variable.rs). -/
def sigmoid (ro : RealOps) (g : Graph) (a : Variable) : Graph × Variable :=
  let result := a.data.sigmoid ro
  let p := g.addNode (Op.Sigmoid a.node_id) result true
  (p.1, ⟨p.2, result⟩)

/-- `Variable::tanh_act` (variable.rs). -/
def tanh_act (ro : RealOps) (g : Graph) (a : Variable) : Graph × Variable :=
  let result := a.data.tanh_elem ro
  let p := g.addNode (Op.Tanh a.node_id) result true
  (p.1, ⟨p.2, result⟩)

/-- `Variable::mul_scalar` (variable.rs). -/
def mul_scalar (g : Graph) (a : Variable) (s : ℚ) : Graph × Variable :=
  let result := a.data.mul_scalar s
  let p := g.addNode (Op.MulScalar a.node_id s) result true
  (p.1, ⟨p.2, result⟩)

/-- `Variable::add_scalar` (variable.rs). -/
def add_scalar (g : Graph) (a : Variable) (s : ℚ) : Graph × Variable :=
  let result := a.data.add_scalar s
  let p := g.addNode (Op.AddScalar a.node_id s) result true
  (p.1, ⟨p.2, result⟩)

/-- `Variable::sum` (variable.rs): full reduction to a scalar tensor. -/
def sum (g : Graph) (a : Variable) : Graph × Variable :=
  let result := Tensor.scalar a.data.sum_all
  let p := g.addNode (Op.SumAll a.node_id) result true
  (p.1, ⟨p.2, result⟩)

/-- `Variable::mean` (variable.rs). -/
def mean (g : Graph) (a : Variable) : Graph × Variable :=
  let result := Tensor.scalar a.data.mean_all
  let p := g.addNode (Op.MeanAll a.node_id) result true
  (p.1, ⟨p.2, result⟩)

/-- `Variable::t` (variable.rs). -/
def vt (g : Graph) (a : Variable) : Graph × Option Variable :=
  match Tensor.t a.data with
  | none => (g, none)
  | some result =>
    let p := g.addNode (Op.Transpose a.node_id) result true
    (p.1, some ⟨p.2, result⟩)

/-- `Variable::pow` (variable.rs). -/
def pow (ro : RealOps) (g : Graph) (a : Variable) (n : ℚ) : Graph × Variable :=
  let result := a.data.powf ro n
  let p := g.addNode (Op.Pow a.node_id n) result true
  (p.1, ⟨p.2, result⟩)

end Variable

/-- The gradient table of `backward` (backward.rs): a map from NodeId to
gradient tensor, modelled extensionally. -/
def GradTable : Type := Nat → Option Tensor

/-- `HashMap::insert`-style update of the gradient table. -/
def insertG (tab : GradTable) (k : Nat) (v : Tensor) : GradTable :=
  fun i => if i = k then some v else tab i

/-- The empty gradient table. -/
def emptyGrads : GradTable := fun _ => none

/-- The leading-axis loop of `reduce_broadcast` (backward.rs): sum over
axis 0 `k` times; `none` models the `expect` panic. -/
def sumLeading : Nat → Tensor → Option Tensor
  | 0, t => some t
  | k + 1, t => (t.sum_axis 0).bind (sumLeading k)

/-- The per-axis loop of `reduce_broadcast` (backward.rs): walking the
pairs of the gradient shape (snapshotted before the loop, as in the
source) zipped with the target, sum-and-unsqueeze every axis where the
target has size 1 but the gradient size exceeds 1. -/
def axisReduceLoop : List (Nat × Nat) → Nat → Tensor → Option Tensor
  | [], _, t => some t
  | (gs, ts) :: rest, i, t =>
    if ts = 1 ∧ gs > 1 then
      ((t.sum_axis i).bind (fun u => u.unsqueeze i)).bind (axisReduceLoop rest (i + 1))
    else axisReduceLoop rest (i + 1) t

/-- The final block of `reduce_broadcast` (backward.rs): if the shape
still differs from the target, reshape, and on reshape failure fall back
to a tensor filled with the mean value (`unwrap_or_else`). -/
def finalReshape (r : Tensor) (target : Sh) : Tensor :=
  if r.shape = target then r
  else
    match r.reshape target with
    | some x => x
    | none => Tensor.full target (fdiv r.sum_all (r.numel : ℚ))

/-- `reduce_broadcast` (backward.rs): reduce a gradient tensor to match
the target shape, undoing forward broadcasting. -/
def reduce_broadcast (grad : Tensor) (target : Sh) : Option Tensor :=
  if grad.shape = target then some grad
  else if target = [] ∨ target = [1] then some (Tensor.scalar grad.sum_all)
  else
    (sumLeading (grad.ndim - target.length) grad).bind (fun r1 =>
      (axisReduceLoop (r1.shape.zip target) 0 r1).bind (fun r2 =>
        some (finalReshape r2 target)))

/-- `accumulate_grad` (backward.rs): broadcast-reduce the incoming
gradient to the target shape, then insert it, or sum it elementwise into
the existing entry. -/
def accumulate_grad (grads : GradTable) (node_id : Nat) (incoming : Tensor)
    (target : Sh) : Option GradTable :=
  match reduce_broadcast incoming target with
  | none => none
  | some grad =>
    match grads node_id with
    | some existing =>
      match existing.add grad with
      | none => none
      | some s => some (insertG grads node_id s)
    | none => some (insertG grads node_id grad)

/-- One iteration of the reverse traversal of `backward` (backward.rs):
skip ids without an accumulated gradient, otherwise dispatch on the
operation tag and merge each operand's contribution via
`accumulate_grad`. `none` models any `expect` panic aborting the call. -/
def backwardStep (ro : RealOps) (g : Graph) (grads : GradTable) (idx : Nat) :
    Option GradTable :=
  match grads idx with
  | none => some grads
  | some grad =>
    match g.get? idx with
    | none => none
    | some node =>
      match node.op with
      | Op.Leaf => some grads
      | Op.Add a b => do
        let na ← g.get? a
        let g1 ← accumulate_grad grads a grad na.shape
        let nb ← g.get? b
        accumulate_grad g1 b grad nb.shape
      | Op.Sub a b => do
        let na ← g.get? a
        let g1 ← accumulate_grad grads a grad na.shape
        let neg_grad := grad.mul_scalar (-1)
        let nb ← g.get? b
        accumulate_grad g1 b neg_grad nb.shape
      | Op.Mul a b => do
        let nb ← g.get? b
        let ga ← grad.mul nb.value
        let na ← g.get? a
        let g1 ← accumulate_grad grads a ga na.shape
        let gb ← grad.mul na.value
        accumulate_grad g1 b gb nb.shape
      | Op.Div a b => do
        let nb ← g.get? b
        let ga ← grad.div nb.value
        let na ← g.get? a
        let g1 ← accumulate_grad grads a ga na.shape
        let neg_a := na.value.mul_scalar (-1)
        let b_sq ← nb.value.mul nb.value
        let num ← neg_a.mul grad
        let gb ← num.div b_sq
        accumulate_grad g1 b gb nb.shape
      | Op.MatMul a b => do
        let nb ← g.get? b
        let bt ← nb.value.t
        let ga ← grad.matmul bt
        let na ← g.get? a
        let g1 ← accumulate_grad grads a ga na.shape
        let at0 ← na.value.t
        let gb ← at0.matmul grad
        accumulate_grad g1 b gb nb.shape
      | Op.Neg a => do
        let ga := grad.mul_scalar (-1)
        let na ← g.get? a
        accumulate_grad grads a ga na.shape
      | Op.Exp a => do
        let ga ← node.value.mul grad
        let na ← g.get? a
        accumulate_grad grads a ga na.shape
      | Op.Ln a => do
        let na ← g.get? a
        let ga ← grad.div na.value
        accumulate_grad grads a ga na.shape
      | Op.Pow a n => do
        let na ← g.get? a
        let am1 := na.value.powf ro (fsub n 1)
        let ga ← (am1.mul_scalar n).mul grad
        accumulate_grad grads a ga na.shape
      | Op.Relu a => do
        let na ← g.get? a
        let mask := na.value.apply (fun x => if x > 0 then 1 else 0)
        let ga ← mask.mul grad
        accumulate_grad grads a ga na.shape
      | Op.Sigmoid a => do
        let sig := node.value
        let one_minus := sig.apply (fun x => fsub 1 x)
        let s1 ← sig.mul one_minus
        let ga ← s1.mul grad
        let na ← g.get? a
        accumulate_grad grads a ga na.shape
      | Op.Tanh a => do
        let th := node.value
        let th_sq ← th.mul th
        let one_minus := th_sq.apply (fun x => fsub 1 x)
        let ga ← one_minus.mul grad
        let na ← g.get? a
        accumulate_grad grads a ga na.shape
      | Op.SumAll a => do
        let na ← g.get? a
        let ga := Tensor.ones na.shape
        let ga := ga.mul_scalar (grad.item.getD 1)
        accumulate_grad grads a ga na.shape
      | Op.MeanAll a => do
        let na ← g.get? a
        let scale := fdiv 1 (na.value.numel : ℚ)
        let ga := Tensor.full na.shape scale
        let ga := ga.mul_scalar (grad.item.getD 1)
        accumulate_grad grads a ga na.shape
      | Op.Transpose a => do
        let ga ← grad.t
        let na ← g.get? a
        accumulate_grad grads a ga na.shape
      | Op.MulScalar a s => do
        let ga := grad.mul_scalar s
        let na ← g.get? a
        accumulate_grad grads a ga na.shape
      | Op.AddScalar a _ => do
        let na ← g.get? a
        accumulate_grad grads a grad na.shape

/-- `backward` (backward.rs): seed the table at the loss node with ones of
its shape (the 1-element tensor holding 1.0 when the loss is scalar),
then fold the reverse traversal over ids n-1 down to 0. -/
def backward (ro : RealOps) (g : Graph) (lossId : Nat) : Option GradTable :=
  let n := g.len
  match g.get? lossId with
  | none => none
  | some lossNode =>
    let seed :=
      if lossNode.shape = [] ∨ lossNode.shape = [1] then Tensor.scalar 1
      else Tensor.ones lossNode.shape
    let init := insertG emptyGrads lossId seed
    (List.range n).reverse.foldlM (fun gr idx => backwardStep ro g gr idx) init

/-! ### Invariant vocabulary -/

/-- Single-index form of the tape invariant, for decidability. -/
def wellFormedAt (g : Graph) (i : Nat) : Prop :=
  ∀ n, g.get? i = some n → n.id = i ∧ opValid n.op i

instance (g : Graph) (i : Nat) : Decidable (wellFormedAt g i) :=
  match h : g.get? i with
  | none => isTrue (by intro n hn; rw [h] at hn; cases hn)
  | some m =>
    decidable_of_iff (m.id = i ∧ opValid m.op i) (by
      constructor
      · intro hm n hn
        rw [h] at hn
        cases hn
        exact hm
      · intro hall
        exact hall m h)

/-- A gradient tensor is shaped for a node: either exactly the node's
recorded shape, or the 0-d scalar shape when the recorded shape is `[1]`
(the scalar branch of `reduce_broadcast` produces a 0-d tensor). -/
def shapeOK (t : Tensor) (s : Sh) : Prop :=
  t.shape = s ∨ (s = [1] ∧ t.shape = [])

/-- Backward-loop invariant for the seed entry: the table holds the
scalar-1 seed at the loss id and no key above the loss id. -/
def PInv (lossId : Nat) (gr : GradTable) : Prop :=
  gr lossId = some (Tensor.scalar 1) ∧ ∀ k, gr k ≠ none → k ≤ lossId

/-- Backward-loop invariant for gradient shapes: every table entry is
shaped for its node's recorded shape. -/
def QInv (g : Graph) (gr : GradTable) : Prop :=
  ∀ k tk, gr k = some tk → ∃ node, g.get? k = some node ∧ shapeOK tk node.shape

/-- A chain of `accumulate_grad` calls, one per operand in order, each
using the operand's recorded shape as target — the shape every dispatch
branch of `backwardStep` has. -/
inductive AccChain (g : Graph) : GradTable → GradTable → List Nat → Prop where
  | nil : ∀ t, AccChain g t t []
  | cons : ∀ o no inc t t1 t2 os, g.get? o = some no →
      accumulate_grad t o inc no.shape = some t1 →
      AccChain g t1 t2 os → AccChain g t t2 (o :: os)

/-! ### Concrete pipelines used by witnesses and counterexamples -/

/-- Two leaves with unbroadcastable shapes [2,3] and [4,5]. -/
def C2pipe1 : Graph × Variable := Variable.new Graph.new ⟨List.replicate 6 0, [2, 3]⟩ true

/-- Second leaf of the C2 scenario. -/
def C2pipe2 : Graph × Variable := Variable.new C2pipe1.1 ⟨List.replicate 20 0, [4, 5]⟩ true

/-- Two `requires_grad = false` leaves. -/
def C3pipe1 : Graph × Variable := Variable.new Graph.new (Tensor.scalar 1) false

/-- Second no-grad leaf. -/
def C3pipe2 : Graph × Variable := Variable.new C3pipe1.1 (Tensor.scalar 2) false

/-- Adding the two no-grad leaves. -/
def C3res : Graph × Option Variable := Variable.add C3pipe2.1 C3pipe1.2 C3pipe2.2

/-- The graph after the C3 add. -/
def C3resG : Graph := C3res.1

/-- The Variable produced by the C3 add. -/
def C3resV : Variable := C3res.2.getD ⟨0, Tensor.scalar 0⟩

/-- A single scalar parameter leaf, the loss of the C4 witness. -/
def C4pipe : Graph × Variable := Variable.new Graph.new (Tensor.scalar 5) true

/-- The scalar leaf x = 3 of the multivariate-accumulation example. -/
def C5pipe1 : Graph × Variable := Variable.param Graph.new (Tensor.scalar 3)

/-- y = x * x: x consumed twice by one Mul node. -/
def C5pipe2 : Graph × Option Variable := Variable.mul C5pipe1.1 C5pipe1.2 C5pipe1.2

/-- The Variable y of the C5 example. -/
def C5y : Variable := C5pipe2.2.getD ⟨0, Tensor.scalar 0⟩

/-- The leaf x = [-1, 2, -3, 4] of the ReLU-mask example. -/
def C7pipe1 : Graph × Variable := Variable.param Graph.new ⟨[-1, 2, -3, 4], [4]⟩

/-- relu(x). -/
def C7pipe2 : Graph × Variable := Variable.relu C7pipe1.1 C7pipe1.2

/-- sum(relu(x)), the scalar loss. -/
def C7pipe3 : Graph × Variable := Variable.sum C7pipe2.1 C7pipe2.2

/-- A [1]-shaped bias leaf (1-element vector, not 0-d). -/
def C10pipe1 : Graph × Variable := Variable.new Graph.new ⟨[5], [1]⟩ true

/-- A [3]-shaped batch leaf. -/
def C10pipe2 : Graph × Variable := Variable.new C10pipe1.1 ⟨[1, 2, 3], [3]⟩ true

/-- bias + batch (broadcast [1] up to [3]). -/
def C10pipe3 : Graph × Option Variable := Variable.add C10pipe2.1 C10pipe1.2 C10pipe2.2

/-- The Variable of the broadcast add. -/
def C10v2 : Variable := C10pipe3.2.getD ⟨0, Tensor.scalar 0⟩

/-- The scalar loss sum(bias + batch). -/
def C10pipe4 : Graph × Variable := Variable.sum C10pipe3.1 C10v2

/-- The 4-node graph of the C10 scenario. -/
def C10G : Graph := C10pipe4.1

/-- The C6 witness scenario: a [1,3] bias leaf. -/
def C6pipe1 : Graph × Variable := Variable.new Graph.new ⟨[1, 2, 3], [1, 3]⟩ true

/-- The [2,3] batch leaf of the C6 witness. -/
def C6pipe2 : Graph × Variable := Variable.new C6pipe1.1 ⟨[1, 1, 1, 1, 1, 1], [2, 3]⟩ true

/-- A one-node graph for the C8 witness. -/
def C8pipe : Graph × Variable := Variable.new Graph.new (Tensor.scalar 7) true

/-- A one-node graph for the C9 witness. -/
def C9pipe : Graph × Variable := Variable.new Graph.new (Tensor.scalar 2) true

/-! ### The kernel-computable scalar ops are the field operations of ℚ -/

lemma fadd_eq (x y : ℚ) : fadd x y = x + y := by
  have hx : ((x.den : ℚ)) ≠ 0 := Nat.cast_ne_zero.mpr x.den_nz
  have hy : ((y.den : ℚ)) ≠ 0 := Nat.cast_ne_zero.mpr y.den_nz
  rw [fadd, Rat.divInt_eq_div]
  conv_rhs => rw [← Rat.num_div_den x, ← Rat.num_div_den y]
  push_cast
  field_simp

lemma fsub_eq (x y : ℚ) : fsub x y = x - y := by
  have hx : ((x.den : ℚ)) ≠ 0 := Nat.cast_ne_zero.mpr x.den_nz
  have hy : ((y.den : ℚ)) ≠ 0 := Nat.cast_ne_zero.mpr y.den_nz
  rw [fsub, Rat.divInt_eq_div]
  conv_rhs => rw [← Rat.num_div_den x, ← Rat.num_div_den y]
  push_cast
  field_simp
  ring

lemma fmul_eq (x y : ℚ) : fmul x y = x * y := by
  have hx : ((x.den : ℚ)) ≠ 0 := Nat.cast_ne_zero.mpr x.den_nz
  have hy : ((y.den : ℚ)) ≠ 0 := Nat.cast_ne_zero.mpr y.den_nz
  rw [fmul, Rat.divInt_eq_div]
  conv_rhs => rw [← Rat.num_div_den x, ← Rat.num_div_den y]
  push_cast
  field_simp

lemma fdiv_eq (x y : ℚ) : fdiv x y = x / y := by
  rcases eq_or_ne y 0 with rfl | hy0
  · show Rat.divInt (x.num * (0 : ℚ).den) (x.den * (0 : ℚ).num) = x / 0
    norm_num
  · have hx : ((x.den : ℚ)) ≠ 0 := Nat.cast_ne_zero.mpr x.den_nz
    have hyn : ((y.num : ℚ)) ≠ 0 := by
      exact_mod_cast Rat.num_ne_zero.mpr hy0
    have hy : ((y.den : ℚ)) ≠ 0 := Nat.cast_ne_zero.mpr y.den_nz
    rw [fdiv, Rat.divInt_eq_div]
    conv_rhs => rw [← Rat.num_div_den x, ← Rat.num_div_den y]
    push_cast
    field_simp

lemma qsum_eq (l : List ℚ) : qsum l = l.sum := by
  induction l with
  | nil => rfl
  | cons a l ih =>
    rw [List.sum_cons, ← ih]
    exact fadd_eq a (qsum l)

/-! ### Graph lemmas -/

lemma addNode_len (g : Graph) (op : Op) (v : Tensor) (rg : Bool) :
    (g.addNode op v rg).1.len = g.len + 1 := by
  simp [Graph.addNode, Graph.len]

lemma addNode_get_lt (g : Graph) (op : Op) (v : Tensor) (rg : Bool) (i : Nat)
    (h : i < g.len) : (g.addNode op v rg).1.get? i = g.get? i := by
  unfold Graph.addNode Graph.get?
  exact List.get?_append h

lemma addNode_get_len (g : Graph) (op : Op) (v : Tensor) (rg : Bool) :
    (g.addNode op v rg).1.get? g.len = some ⟨g.len, op, v.shape, v, rg⟩ := by
  unfold Graph.addNode Graph.get? Graph.len
  exact List.get?_concat_length _ _

lemma get?_none_of_le (g : Graph) (i : Nat) (h : g.len ≤ i) : g.get? i = none :=
  List.get?_eq_none.mpr h

lemma addNode_wf (g : Graph) (op : Op) (v : Tensor) (rg : Bool)
    (hwf : wellFormed g) (hop : opValid op g.len) :
    wellFormed (g.addNode op v rg).1 := by
  intro i n hn
  rcases lt_trichotomy i g.len with hlt | heq | hgt
  · rw [addNode_get_lt g op v rg i hlt] at hn
    exact hwf i n hn
  · subst heq
    rw [addNode_get_len] at hn
    cases hn
    exact ⟨rfl, hop⟩
  · have : (g.addNode op v rg).1.get? i = none :=
      get?_none_of_le _ i (by rw [addNode_len]; omega)
    rw [this] at hn
    cases hn

lemma wellFormed_iff (g : Graph) :
    wellFormed g ↔ ∀ i ∈ List.range g.len, wellFormedAt g i := by
  constructor
  · intro h i _ n hn
    exact h i n hn
  · intro h i n hn
    have hi : i < g.len := by
      by_contra hge
      push_neg at hge
      rw [get?_none_of_le g i hge] at hn
      cases hn
    exact h i (List.mem_range.mpr hi) n hn

instance (g : Graph) : Decidable (wellFormed g) :=
  decidable_of_iff _ (wellFormed_iff g).symm

/-! ### Table and accumulation lemmas -/

lemma insertG_same (tab : GradTable) (k : Nat) (v : Tensor) :
    insertG tab k v k = some v := by
  simp [insertG]

lemma insertG_ne (tab : GradTable) (k : Nat) (v : Tensor) (i : Nat) (h : i ≠ k) :
    insertG tab k v i = tab i := by
  simp [insertG, h]

lemma reduce_broadcast_refl (t : Tensor) (tgt : Sh) (h : t.shape = tgt) :
    reduce_broadcast t tgt = some t := by
  unfold reduce_broadcast
  rw [if_pos h]

lemma accumulate_or_insert (grads : GradTable) (o : Nat) (inc r : Tensor) (tgt : Sh)
    (h1 : grads o = none) (h2 : reduce_broadcast inc tgt = some r) :
    accumulate_grad grads o inc tgt = some (insertG grads o r) := by
  unfold accumulate_grad
  rw [h2, h1]

lemma accumulate_and_modify (grads : GradTable) (o : Nat) (inc r e s : Tensor) (tgt : Sh)
    (h0 : grads o = some e) (h2 : reduce_broadcast inc tgt = some r)
    (h3 : e.add r = some s) :
    accumulate_grad grads o inc tgt = some (insertG grads o s) := by
  unfold accumulate_grad
  rw [h2, h0]
  dsimp only
  rw [h3]

lemma accumulate_grad_spec {grads : GradTable} {o : Nat} {inc : Tensor} {tgt : Sh}
    {g2 : GradTable} (h : accumulate_grad grads o inc tgt = some g2) :
    ∃ r v, reduce_broadcast inc tgt = some r ∧ g2 = insertG grads o v ∧
      (grads o = none ∧ v = r ∨ ∃ e, grads o = some e ∧ e.add r = some v) := by
  unfold accumulate_grad at h
  cases hr : reduce_broadcast inc tgt with
  | none => rw [hr] at h; cases h
  | some r =>
    rw [hr] at h
    dsimp only at h
    cases he : grads o with
    | none =>
      rw [he] at h
      dsimp only at h
      cases h
      exact ⟨r, r, rfl, rfl, Or.inl ⟨rfl, rfl⟩⟩
    | some e =>
      rw [he] at h
      dsimp only at h
      cases ha : e.add r with
      | none => rw [ha] at h; cases h
      | some s =>
        rw [ha] at h
        cases h
        exact ⟨r, s, rfl, rfl, Or.inr ⟨e, rfl, ha⟩⟩

/-! ### foldlM machinery -/

lemma foldlM_option_nil (f : GradTable → Nat → Option GradTable) (b : GradTable) :
    List.foldlM f b [] = some b := rfl

lemma foldlM_option_cons (f : GradTable → Nat → Option GradTable) (b : GradTable)
    (x : Nat) (l : List Nat) :
    List.foldlM f b (x :: l) = (f b x).bind (fun b2 => List.foldlM f b2 l) := by
  simp [List.foldlM]

lemma foldlM_option_preserve (f : GradTable → Nat → Option GradTable)
    (P : GradTable → Prop)
    (hstep : ∀ b a b2, P b → f b a = some b2 → P b2) :
    ∀ (l : List Nat) (b b2 : GradTable), P b → List.foldlM f b l = some b2 → P b2 := by
  intro l
  induction l with
  | nil =>
    intro b b2 hP h
    rw [foldlM_option_nil] at h
    cases h
    exact hP
  | cons a l ih =>
    intro b b2 hP h
    rw [foldlM_option_cons] at h
    obtain ⟨b1, h1, h2⟩ := Option.bind_eq_some.mp h
    exact ih b1 b2 (hstep b a b1 hP h1) h2

/-! ### Shape lemmas for broadcast reduction -/

lemma finalReshape_shape (r : Tensor) (target : Sh) :
    (finalReshape r target).shape = target := by
  unfold finalReshape
  by_cases h : r.shape = target
  · rw [if_pos h]
    exact h
  · rw [if_neg h]
    unfold Tensor.reshape
    by_cases h2 : r.numel ≠ numelS target
    · rw [if_pos h2]
      rfl
    · rw [if_neg h2]

lemma reduce_broadcast_shapeOK {grad : Tensor} {target : Sh} {r : Tensor}
    (h : reduce_broadcast grad target = some r) : shapeOK r target := by
  unfold reduce_broadcast at h
  by_cases h1 : grad.shape = target
  · rw [if_pos h1] at h
    cases h
    exact Or.inl h1
  · rw [if_neg h1] at h
    by_cases h2 : target = [] ∨ target = [1]
    · rw [if_pos h2] at h
      cases h
      rcases h2 with h2 | h2
      · subst h2
        exact Or.inl rfl
      · exact Or.inr ⟨h2, rfl⟩
    · rw [if_neg h2] at h
      obtain ⟨r1, _, h⟩ := Option.bind_eq_some.mp h
      obtain ⟨r2, _, h⟩ := Option.bind_eq_some.mp h
      cases h
      exact Or.inl (finalReshape_shape r2 target)

lemma bcast_one_nil : broadcastShape [1] [] = some [1] := by decide

lemma bcast_nil_one : broadcastShape [] [1] = some [1] := by decide

lemma tadd_fast {a b : Tensor} (h : a.shape = b.shape) :
    ∃ z, Tensor.add a b = some z ∧ z.shape = a.shape := by
  unfold Tensor.add Tensor.broadcastBinaryOp
  rw [if_pos h]
  exact ⟨_, rfl, rfl⟩

lemma tadd_bcast {a b : Tensor} {s : Sh} (hne : a.shape ≠ b.shape)
    (hb : broadcastShape a.shape b.shape = some s) :
    ∃ z, Tensor.add a b = some z ∧ z.shape = s := by
  unfold Tensor.add Tensor.broadcastBinaryOp
  rw [if_neg hne, hb]
  exact ⟨_, rfl, rfl⟩

lemma add_shapeOK {x y : Tensor} {s : Sh} {z : Tensor}
    (hx : shapeOK x s) (hy : shapeOK y s) (h : Tensor.add x y = some z) :
    shapeOK z s := by
  rcases hx with hx | ⟨hs1, hx⟩ <;> rcases hy with hy | ⟨hs1b, hy⟩
  · -- both have shape s
    obtain ⟨z2, hz2, hzs⟩ := tadd_fast (hx.trans hy.symm)
    rw [hz2] at h
    cases h
    exact Or.inl (hzs.trans hx)
  · -- x.shape = s = [1], y.shape = []
    subst hs1b
    have hne : x.shape ≠ y.shape := by rw [hx, hy]; simp
    obtain ⟨z2, hz2, hzs⟩ := tadd_bcast hne (by rw [hx, hy]; exact bcast_one_nil)
    rw [hz2] at h
    cases h
    exact Or.inl hzs
  · -- x.shape = [], y.shape = s = [1]
    subst hs1
    have hne : x.shape ≠ y.shape := by rw [hx, hy]; simp
    obtain ⟨z2, hz2, hzs⟩ := tadd_bcast hne (by rw [hx, hy]; exact bcast_nil_one)
    rw [hz2] at h
    cases h
    exact Or.inl hzs
  · -- both scalar-shaped, s = [1]
    obtain ⟨z2, hz2, hzs⟩ := tadd_fast (hx.trans hy.symm)
    rw [hz2] at h
    cases h
    exact Or.inr ⟨hs1, hzs.trans hx⟩

/-! ### Invariant preservation through accumulation -/

lemma accumulate_P {L : Nat} {grads : GradTable} {o : Nat} {inc : Tensor} {tgt : Sh}
    {g2 : GradTable} (ho : o < L) (hP : PInv L grads)
    (h : accumulate_grad grads o inc tgt = some g2) : PInv L g2 := by
  obtain ⟨r, v, _, rfl, _⟩ := accumulate_grad_spec h
  constructor
  · rw [insertG_ne _ _ _ _ (Nat.ne_of_gt ho)]
    exact hP.1
  · intro k hk
    by_cases hko : k = o
    · subst hko
      exact Nat.le_of_lt ho
    · rw [insertG_ne _ _ _ _ hko] at hk
      exact hP.2 k hk

lemma accumulate_Q {g : Graph} {grads : GradTable} {o : Nat} {no : Node}
    {inc : Tensor} {g2 : GradTable} (hno : g.get? o = some no) (hQ : QInv g grads)
    (h : accumulate_grad grads o inc no.shape = some g2) : QInv g g2 := by
  obtain ⟨r, v, hr, rfl, hv⟩ := accumulate_grad_spec h
  intro k tk hk
  by_cases hko : k = o
  · subst hko
    rw [insertG_same] at hk
    cases hk
    refine ⟨no, hno, ?_⟩
    rcases hv with ⟨_, rfl⟩ | ⟨e, he, hadd⟩
    · exact reduce_broadcast_shapeOK hr
    · obtain ⟨node2, hnode2, hOK⟩ := hQ k e he
      rw [hno] at hnode2
      cases hnode2
      exact add_shapeOK hOK (reduce_broadcast_shapeOK hr) hadd
  · rw [insertG_ne _ _ _ _ hko] at hk
    exact hQ k tk hk

lemma accChain_P {g : Graph} {t t2 : GradTable} {os : List Nat} {L : Nat}
    (hc : AccChain g t t2 os) (hlt : ∀ o ∈ os, o < L) (hP : PInv L t) : PInv L t2 := by
  induction hc with
  | nil => exact hP
  | cons o no inc t t1 t2 os _ hacc _ ih =>
    exact ih (fun x hx => hlt x (List.mem_cons_of_mem o hx))
      (accumulate_P (hlt o (List.mem_cons_self o os)) hP hacc)

lemma accChain_Q {g : Graph} {t t2 : GradTable} {os : List Nat}
    (hc : AccChain g t t2 os) (hQ : QInv g t) : QInv g t2 := by
  induction hc with
  | nil => exact hQ
  | cons o no inc t t1 t2 os hno hacc _ ih =>
    exact ih (accumulate_Q hno hQ hacc)

/-! ### Characterizing one backward step as an accumulation chain -/

lemma obind_eq_some {α β : Type} {x : Option α} {f : α → Option β} {b : β}
    (h : x >>= f = some b) : ∃ a, x = some a ∧ f a = some b := by
  cases x with
  | none => exact Option.noConfusion h
  | some a => exact ⟨a, rfl, h⟩

lemma backwardStep_chain {ro : RealOps} {g : Graph} {grads : GradTable} {idx : Nat}
    {gr2 : GradTable} (h : backwardStep ro g grads idx = some gr2) :
    gr2 = grads ∨ ∃ node, g.get? idx = some node ∧ grads idx ≠ none ∧
      AccChain g grads gr2 (opOperands node.op) := by
  unfold backwardStep at h
  cases hg : grads idx with
  | none =>
    rw [hg] at h
    cases h
    exact Or.inl rfl
  | some grad =>
    rw [hg] at h
    dsimp only at h
    cases hn : g.get? idx with
    | none =>
      rw [hn] at h
      exact Option.noConfusion h
    | some node =>
      rw [hn] at h
      dsimp only at h
      refine Or.inr ⟨node, rfl, by simp, ?_⟩
      cases hop : node.op with
      | Leaf =>
        rw [hop] at h
        cases h
        exact AccChain.nil _
      | Add a b =>
        rw [hop] at h
        obtain ⟨na, hna, h⟩ := obind_eq_some h
        obtain ⟨g1, hacc1, h⟩ := obind_eq_some h
        obtain ⟨nb, hnb, h⟩ := obind_eq_some h
        exact AccChain.cons a na _ _ _ _ _ hna hacc1
          (AccChain.cons b nb _ _ _ _ _ hnb h (AccChain.nil _))
      | Sub a b =>
        rw [hop] at h
        obtain ⟨na, hna, h⟩ := obind_eq_some h
        obtain ⟨g1, hacc1, h⟩ := obind_eq_some h
        obtain ⟨nb, hnb, h⟩ := obind_eq_some h
        exact AccChain.cons a na _ _ _ _ _ hna hacc1
          (AccChain.cons b nb _ _ _ _ _ hnb h (AccChain.nil _))
      | Mul a b =>
        rw [hop] at h
        obtain ⟨nb, hnb, h⟩ := obind_eq_some h
        obtain ⟨ga, _, h⟩ := obind_eq_some h
        obtain ⟨na, hna, h⟩ := obind_eq_some h
        obtain ⟨g1, hacc1, h⟩ := obind_eq_some h
        obtain ⟨gb, _, h⟩ := obind_eq_some h
        exact AccChain.cons a na _ _ _ _ _ hna hacc1
          (AccChain.cons b nb _ _ _ _ _ hnb h (AccChain.nil _))
      | Div a b =>
        rw [hop] at h
        obtain ⟨nb, hnb, h⟩ := obind_eq_some h
        obtain ⟨ga, _, h⟩ := obind_eq_some h
        obtain ⟨na, hna, h⟩ := obind_eq_some h
        obtain ⟨g1, hacc1, h⟩ := obind_eq_some h
        obtain ⟨b_sq, _, h⟩ := obind_eq_some h
        obtain ⟨num, _, h⟩ := obind_eq_some h
        obtain ⟨gb, _, h⟩ := obind_eq_some h
        exact AccChain.cons a na _ _ _ _ _ hna hacc1
          (AccChain.cons b nb _ _ _ _ _ hnb h (AccChain.nil _))
      | MatMul a b =>
        rw [hop] at h
        obtain ⟨nb, hnb, h⟩ := obind_eq_some h
        obtain ⟨bt, _, h⟩ := obind_eq_some h
        obtain ⟨ga, _, h⟩ := obind_eq_some h
        obtain ⟨na, hna, h⟩ := obind_eq_some h
        obtain ⟨g1, hacc1, h⟩ := obind_eq_some h
        obtain ⟨at0, _, h⟩ := obind_eq_some h
        obtain ⟨gb, _, h⟩ := obind_eq_some h
        exact AccChain.cons a na _ _ _ _ _ hna hacc1
          (AccChain.cons b nb _ _ _ _ _ hnb h (AccChain.nil _))
      | Neg a =>
        rw [hop] at h
        obtain ⟨na, hna, h⟩ := obind_eq_some h
        exact AccChain.cons a na _ _ _ _ _ hna h (AccChain.nil _)
      | Exp a =>
        rw [hop] at h
        obtain ⟨ga, _, h⟩ := obind_eq_some h
        obtain ⟨na, hna, h⟩ := obind_eq_some h
        exact AccChain.cons a na _ _ _ _ _ hna h (AccChain.nil _)
      | Ln a =>
        rw [hop] at h
        obtain ⟨na, hna, h⟩ := obind_eq_some h
        obtain ⟨ga, _, h⟩ := obind_eq_some h
        exact AccChain.cons a na _ _ _ _ _ hna h (AccChain.nil _)
      | Pow a n =>
        rw [hop] at h
        obtain ⟨na, hna, h⟩ := obind_eq_some h
        obtain ⟨ga, _, h⟩ := obind_eq_some h
        exact AccChain.cons a na _ _ _ _ _ hna h (AccChain.nil _)
      | Relu a =>
        rw [hop] at h
        obtain ⟨na, hna, h⟩ := obind_eq_some h
        obtain ⟨ga, _, h⟩ := obind_eq_some h
        exact AccChain.cons a na _ _ _ _ _ hna h (AccChain.nil _)
      | Sigmoid a =>
        rw [hop] at h
        obtain ⟨s1, _, h⟩ := obind_eq_some h
        obtain ⟨ga, _, h⟩ := obind_eq_some h
        obtain ⟨na, hna, h⟩ := obind_eq_some h
        exact AccChain.cons a na _ _ _ _ _ hna h (AccChain.nil _)
      | Tanh a =>
        rw [hop] at h
        obtain ⟨th_sq, _, h⟩ := obind_eq_some h
        obtain ⟨ga, _, h⟩ := obind_eq_some h
        obtain ⟨na, hna, h⟩ := obind_eq_some h
        exact AccChain.cons a na _ _ _ _ _ hna h (AccChain.nil _)
      | SumAll a =>
        rw [hop] at h
        obtain ⟨na, hna, h⟩ := obind_eq_some h
        exact AccChain.cons a na _ _ _ _ _ hna h (AccChain.nil _)
      | MeanAll a =>
        rw [hop] at h
        obtain ⟨na, hna, h⟩ := obind_eq_some h
        exact AccChain.cons a na _ _ _ _ _ hna h (AccChain.nil _)
      | Transpose a =>
        rw [hop] at h
        obtain ⟨ga, _, h⟩ := obind_eq_some h
        obtain ⟨na, hna, h⟩ := obind_eq_some h
        exact AccChain.cons a na _ _ _ _ _ hna h (AccChain.nil _)
      | MulScalar a s =>
        rw [hop] at h
        obtain ⟨na, hna, h⟩ := obind_eq_some h
        exact AccChain.cons a na _ _ _ _ _ hna h (AccChain.nil _)
      | AddScalar a s =>
        rw [hop] at h
        obtain ⟨na, hna, h⟩ := obind_eq_some h
        exact AccChain.cons a na _ _ _ _ _ hna h (AccChain.nil _)

lemma backwardStep_P {ro : RealOps} {g : Graph} {grads : GradTable} {idx : Nat}
    {gr2 : GradTable} {L : Nat} (hwf : wellFormed g) (hP : PInv L grads)
    (h : backwardStep ro g grads idx = some gr2) : PInv L gr2 := by
  rcases backwardStep_chain h with rfl | ⟨node, hn, hsome, hchain⟩
  · exact hP
  · have hidx : idx ≤ L := hP.2 idx hsome
    have hop : opValid node.op idx := (hwf idx node hn).2
    exact accChain_P hchain (fun o ho => Nat.lt_of_lt_of_le (hop o ho) hidx) hP

lemma backwardStep_Q {ro : RealOps} {g : Graph} {grads : GradTable} {idx : Nat}
    {gr2 : GradTable} (hQ : QInv g grads)
    (h : backwardStep ro g grads idx = some gr2) : QInv g gr2 := by
  rcases backwardStep_chain h with rfl | ⟨node, hn, _, hchain⟩
  · exact hQ
  · exact accChain_Q hchain hQ

/-! ### Well-formedness preservation by each Variable operation -/

lemma new_wf : ∀ (g : Graph) (d : Tensor) (rg : Bool), wellFormed g →
    wellFormed (Variable.new g d rg).1 := by
  intro g d rg hwf
  exact addNode_wf g Op.Leaf d rg hwf (by intro x hx; simp [opOperands] at hx)

lemma add_wf : ∀ (g : Graph) (a b : Variable), wellFormed g →
    a.node_id < g.len → b.node_id < g.len → wellFormed (Variable.add g a b).1 := by
  intro g a b hwf ha hb
  unfold Variable.add
  cases h : Tensor.add a.data b.data with
  | none => exact hwf
  | some r =>
    exact addNode_wf g _ r true hwf (by
      intro x hx
      simp [opOperands] at hx
      rcases hx with rfl | rfl
      · exact ha
      · exact hb)

lemma sub_wf : ∀ (g : Graph) (a b : Variable), wellFormed g →
    a.node_id < g.len → b.node_id < g.len → wellFormed (Variable.sub g a b).1 := by
  intro g a b hwf ha hb
  unfold Variable.sub
  cases h : Tensor.sub a.data b.data with
  | none => exact hwf
  | some r =>
    exact addNode_wf g _ r true hwf (by
      intro x hx
      simp [opOperands] at hx
      rcases hx with rfl | rfl
      · exact ha
      · exact hb)

lemma mul_wf : ∀ (g : Graph) (a b : Variable), wellFormed g →
    a.node_id < g.len → b.node_id < g.len → wellFormed (Variable.mul g a b).1 := by
  intro g a b hwf ha hb
  unfold Variable.mul
  cases h : Tensor.mul a.data b.data with
  | none => exact hwf
  | some r =>
    exact addNode_wf g _ r true hwf (by
      intro x hx
      simp [opOperands] at hx
      rcases hx with rfl | rfl
      · exact ha
      · exact hb)

lemma div_wf : ∀ (g : Graph) (a b : Variable), wellFormed g →
    a.node_id < g.len → b.node_id < g.len → wellFormed (Variable.div g a b).1 := by
  intro g a b hwf ha hb
  unfold Variable.div
  cases h : Tensor.div a.data b.data with
  | none => exact hwf
  | some r =>
    exact addNode_wf g _ r true hwf (by
      intro x hx
      simp [opOperands] at hx
      rcases hx with rfl | rfl
      · exact ha
      · exact hb)

lemma matmul_wf : ∀ (g : Graph) (a b : Variable), wellFormed g →
    a.node_id < g.len → b.node_id < g.len → wellFormed (Variable.matmul g a b).1 := by
  intro g a b hwf ha hb
  unfold Variable.matmul
  cases h : Tensor.matmul a.data b.data with
  | none => exact hwf
  | some r =>
    exact addNode_wf g _ r true hwf (by
      intro x hx
      simp [opOperands] at hx
      rcases hx with rfl | rfl
      · exact ha
      · exact hb)

lemma vt_wf : ∀ (g : Graph) (a : Variable), wellFormed g →
    a.node_id < g.len → wellFormed (Variable.vt g a).1 := by
  intro g a hwf ha
  unfold Variable.vt
  cases h : Tensor.t a.data with
  | none => exact hwf
  | some r =>
    exact addNode_wf g _ r true hwf (by
      intro x hx
      simp [opOperands] at hx
      subst hx
      exact ha)

lemma neg_wf : ∀ (g : Graph) (a : Variable), wellFormed g →
    a.node_id < g.len → wellFormed (Variable.neg g a).1 := by
  intro g a hwf ha
  exact addNode_wf g _ _ true hwf (by
    intro x hx; simp [opOperands] at hx; subst hx; exact ha)

lemma vexp_wf : ∀ (ro : RealOps) (g : Graph) (a : Variable), wellFormed g →
    a.node_id < g.len → wellFormed (Variable.vexp ro g a).1 := by
  intro ro g a hwf ha
  exact addNode_wf g _ _ true hwf (by
    intro x hx; simp [opOperands] at hx; subst hx; exact ha)

lemma vln_wf : ∀ (ro : RealOps) (g : Graph) (a : Variable), wellFormed g →
    a.node_id < g.len → wellFormed (Variable.vln ro g a).1 := by
  intro ro g a hwf ha
  exact addNode_wf g _ _ true hwf (by
    intro x hx; simp [opOperands] at hx; subst hx; exact ha)

lemma relu_wf : ∀ (g : Graph) (a : Variable), wellFormed g →
    a.node_id < g.len → wellFormed (Variable.relu g a).1 := by
  intro g a hwf ha
  exact addNode_wf g _ _ true hwf (by
    intro x hx; simp [opOperands] at hx; subst hx; exact ha)

lemma sigmoid_wf : ∀ (ro : RealOps) (g : Graph) (a : Variable), wellFormed g →
    a.node_id < g.len → wellFormed (Variable.sigmoid ro g a).1 := by
  intro ro g a hwf ha
  exact addNode_wf g _ _ true hwf (by
    intro x hx; simp [opOperands] at hx; subst hx; exact ha)

lemma tanh_act_wf : ∀ (ro : RealOps) (g : Graph) (a : Variable), wellFormed g →
    a.node_id < g.len → wellFormed (Variable.tanh_act ro g a).1 := by
  intro ro g a hwf ha
  exact addNode_wf g _ _ true hwf (by
    intro x hx; simp [opOperands] at hx; subst hx; exact ha)

lemma mul_scalar_wf : ∀ (g : Graph) (a : Variable) (s : ℚ), wellFormed g →
    a.node_id < g.len → wellFormed (Variable.mul_scalar g a s).1 := by
  intro g a s hwf ha
  exact addNode_wf g _ _ true hwf (by
    intro x hx; simp [opOperands] at hx; subst hx; exact ha)

lemma add_scalar_wf : ∀ (g : Graph) (a : Variable) (s : ℚ), wellFormed g →
    a.node_id < g.len → wellFormed (Variable.add_scalar g a s).1 := by
  intro g a s hwf ha
  exact addNode_wf g _ _ true hwf (by
    intro x hx; simp [opOperands] at hx; subst hx; exact ha)

lemma sum_wf : ∀ (g : Graph) (a : Variable), wellFormed g →
    a.node_id < g.len → wellFormed (Variable.sum g a).1 := by
  intro g a hwf ha
  exact addNode_wf g _ _ true hwf (by
    intro x hx; simp [opOperands] at hx; subst hx; exact ha)

lemma mean_wf : ∀ (g : Graph) (a : Variable), wellFormed g →
    a.node_id < g.len → wellFormed (Variable.mean g a).1 := by
  intro g a hwf ha
  exact addNode_wf g _ _ true hwf (by
    intro x hx; simp [opOperands] at hx; subst hx; exact ha)

lemma pow_wf : ∀ (ro : RealOps) (g : Graph) (a : Variable) (n : ℚ), wellFormed g →
    a.node_id < g.len → wellFormed (Variable.pow ro g a n).1 := by
  intro ro g a n hwf ha
  exact addNode_wf g _ _ true hwf (by
    intro x hx; simp [opOperands] at hx; subst hx; exact ha)

lemma broadcastShape_self_isSome (s : Sh) : (broadcastShape s s).isSome := by
  unfold broadcastShape
  dsimp only
  split
  · rfl
  · rename_i hfalse
    exfalso
    apply hfalse
    rw [List.all_eq_true]
    intro x hx
    rw [List.mem_map] at hx
    obtain ⟨i, _, hi⟩ := hx
    subst hi
    simp

/-! ### Claim theorems -/

/-- C1: the broadcast-reduction helper `reduce_broadcast`, asked to
reconcile a 3-element gradient of shape [3] with target shape [2,2]
(element counts 3 vs 4), does NOT fail: it returns a [2,2] tensor filled
with the gradient's mean value 2 = (1+2+3)/3. This exhibits the code
violating the claim (and spec §4.4/§7), which requires an error or loud
panic instead of a mean-filled approximation. -/
theorem C1_mean_fill_instead_of_error :
    reduce_broadcast ⟨[1, 2, 3], [3]⟩ [2, 2] = some (Tensor.full [2, 2] 2) ∧
    Tensor.full [2, 2] 2 = ⟨[2, 2, 2, 2], [2, 2]⟩ := by decide

/-- C2: for Variables whose tensor shapes cannot be broadcast together,
`Variable::add` propagates the tensor contract's failure and leaves the
graph untouched: the returned graph is the input graph and its length is
unchanged (no node recorded). -/
theorem C2_add_fail_fast (g : Graph) (a b : Variable)
    (h : broadcastShape a.data.shape b.data.shape = none) :
    Variable.add g a b = (g, none) ∧ (Variable.add g a b).1.len = g.len := by
  have hne : a.data.shape ≠ b.data.shape := by
    intro he
    have hself := broadcastShape_self_isSome b.data.shape
    rw [he] at h
    rw [h] at hself
    simp at hself
  have hadd : Tensor.add a.data b.data = none := by
    unfold Tensor.add Tensor.broadcastBinaryOp
    rw [if_neg hne, h]
  constructor
  · unfold Variable.add
    rw [hadd]
  · unfold Variable.add
    rw [hadd]

/-- Witness for C2 at the concrete shapes [2,3] and [4,5]. -/
theorem C2_add_fail_fast_witness :
    broadcastShape [2, 3] [4, 5] = none ∧
    Variable.add C2pipe2.1 C2pipe1.2 C2pipe2.2 = (C2pipe2.1, none) ∧
    (Variable.add C2pipe2.1 C2pipe1.2 C2pipe2.2).1.len = C2pipe2.1.len :=
  ⟨by decide,
   (C2_add_fail_fast C2pipe2.1 C2pipe1.2 C2pipe2.2 (by decide)).1,
   (C2_add_fail_fast C2pipe2.1 C2pipe1.2 C2pipe2.2 (by decide)).2⟩

/-- C3 counterexample: adding two leaves that both have
`requires_grad = false` records a node (id 2) whose `requires_grad` is
`true`, not `false || false`: `Variable` operations pass `true`
unconditionally, so the claim that a derived node's flag equals the OR of
its operands' flags is false on the code. -/
theorem C3_requires_grad_counterexample :
    (C3resG.get? 2).map Node.requires_grad = some true ∧
    (C3pipe2.1.get? 0).map Node.requires_grad = some false ∧
    (C3pipe2.1.get? 1).map Node.requires_grad = some false ∧
    C3res.2.map Variable.node_id = some 2 ∧
    (true : Bool) ≠ (false || false) := by decide

/-- C3 amended: every derived node recorded by `Variable::add` or
`Variable::mul` has `requires_grad = true` unconditionally, regardless of
the operands' flags (the sample-implementation behavior the spec itself
notes in §4.2/§9). -/
theorem C3_requires_grad_amended :
    (∀ (g : Graph) (a b : Variable) (g2 : Graph) (v : Variable),
        Variable.add g a b = (g2, some v) →
        (g2.get? v.node_id).map Node.requires_grad = some true) ∧
    (∀ (g : Graph) (a b : Variable) (g2 : Graph) (v : Variable),
        Variable.mul g a b = (g2, some v) →
        (g2.get? v.node_id).map Node.requires_grad = some true) := by
  refine ⟨?_, ?_⟩
  · intro g a b g2 v h
    unfold Variable.add at h
    cases hr : Tensor.add a.data b.data with
    | none =>
      rw [hr] at h
      simp at h
    | some r =>
      rw [hr] at h
      dsimp only at h
      injection h with h1 h2
      injection h2 with h3
      subst h1
      subst h3
      show ((g.addNode (Op.Add a.node_id b.node_id) r true).1.get? g.len).map
        Node.requires_grad = some true
      rw [addNode_get_len]
      rfl
  · intro g a b g2 v h
    unfold Variable.mul at h
    cases hr : Tensor.mul a.data b.data with
    | none =>
      rw [hr] at h
      simp at h
    | some r =>
      rw [hr] at h
      dsimp only at h
      injection h with h1 h2
      injection h2 with h3
      subst h1
      subst h3
      show ((g.addNode (Op.Mul a.node_id b.node_id) r true).1.get? g.len).map
        Node.requires_grad = some true
      rw [addNode_get_len]
      rfl

/-- Witness for the amended C3 at the concrete two-leaf graph. -/
theorem C3_requires_grad_amended_witness :
    (C3resG.get? C3resV.node_id).map Node.requires_grad = some true :=
  C3_requires_grad_amended.1 C3pipe2.1 C3pipe1.2 C3pipe2.2 C3resG C3resV (by decide)

/-- C4: for any well-formed graph and a loss node of scalar shape ([] or
[1]), whenever `backward` returns a table, the entry at the loss id is the
1-element tensor holding 1.0 — the seed, which no later accumulation ever
overwrites (every accumulation targets an operand id strictly below the
id being processed). -/
theorem C4_seed_correctness (ro : RealOps) (g : Graph) (lossId : Nat) (lnode : Node)
    (t : GradTable) (hwf : wellFormed g) (hl : g.get? lossId = some lnode)
    (hs : lnode.shape = [] ∨ lnode.shape = [1]) (hb : backward ro g lossId = some t) :
    t lossId = some (Tensor.scalar 1) := by
  unfold backward at hb
  rw [hl] at hb
  dsimp only at hb
  rw [if_pos hs] at hb
  have hinit : PInv lossId (insertG emptyGrads lossId (Tensor.scalar 1)) := by
    constructor
    · exact insertG_same _ _ _
    · intro k hk
      by_cases hkL : k = lossId
      · exact le_of_eq hkL
      · rw [insertG_ne _ _ _ _ hkL] at hk
        exact absurd rfl hk
  exact (foldlM_option_preserve _ (PInv lossId)
    (fun b a b2 hPb hf => backwardStep_P hwf hPb hf) _ _ _ hinit hb).1

/-- Witness for C4 on a one-node scalar graph. -/
theorem C4_seed_correctness_witness :
    ∃ t, backward roZ C4pipe.1 0 = some t ∧ t 0 = some (Tensor.scalar 1) := by
  have hs : (backward roZ C4pipe.1 0).isSome := by decide
  obtain ⟨t, ht⟩ := Option.isSome_iff_exists.mp hs
  refine ⟨t, ht, ?_⟩
  exact C4_seed_correctness roZ C4pipe.1 0 ⟨0, Op.Leaf, [], Tensor.scalar 5, true⟩ t
    (by decide) (by decide) (Or.inl rfl) ht

/-- C5: gradient contributions are accumulated, never overwritten: a first
contribution for an id is inserted (after broadcast reduction), any later
contribution is summed elementwise into the existing entry; and concretely
for y = x*x with scalar leaf x = 3, backward maps x's node id to 6. -/
theorem C5_multivariate_accumulation :
    (∀ (grads : GradTable) (o : Nat) (inc : Tensor) (tgt : Sh) (r : Tensor),
        grads o = none → reduce_broadcast inc tgt = some r →
        accumulate_grad grads o inc tgt = some (insertG grads o r)) ∧
    (∀ (grads : GradTable) (o : Nat) (inc : Tensor) (tgt : Sh) (r e s : Tensor),
        grads o = some e → reduce_broadcast inc tgt = some r → e.add r = some s →
        accumulate_grad grads o inc tgt = some (insertG grads o s)) ∧
    (backward roZ C5pipe2.1 C5y.node_id).bind (fun t => t C5pipe1.2.node_id) =
      some (Tensor.scalar 6) :=
  ⟨fun grads o inc tgt r h1 h2 => accumulate_or_insert grads o inc r tgt h1 h2,
   fun grads o inc tgt r e s h0 h2 h3 => accumulate_and_modify grads o inc r e s tgt h0 h2 h3,
   by decide⟩

/-- Witness for C5's accumulation clauses at concrete scalar tables. -/
theorem C5_multivariate_accumulation_witness :
    accumulate_grad emptyGrads 0 (Tensor.scalar 2) [] =
      some (insertG emptyGrads 0 (Tensor.scalar 2)) ∧
    accumulate_grad (insertG emptyGrads 0 (Tensor.scalar 2)) 0 (Tensor.scalar 3) [] =
      some (insertG (insertG emptyGrads 0 (Tensor.scalar 2)) 0 (Tensor.scalar 5)) :=
  ⟨C5_multivariate_accumulation.1 emptyGrads 0 (Tensor.scalar 2) [] (Tensor.scalar 2)
      rfl (by decide),
   C5_multivariate_accumulation.2.1 (insertG emptyGrads 0 (Tensor.scalar 2)) 0
      (Tensor.scalar 3) [] (Tensor.scalar 3) (Tensor.scalar 2) (Tensor.scalar 5)
      rfl (by decide) (by decide)⟩

/-- C7: for the leaf x = [-1, 2, -3, 4], relu then sum then backward
yields the gradient [0, 1, 0, 1] at x: elementwise it is the incoming
gradient (here 1) exactly where the forward input is strictly positive and
0 otherwise, including at 0. -/
theorem C7_relu_gradient_mask :
    (backward roZ C7pipe3.1 C7pipe3.2.node_id).bind (fun t => t C7pipe1.2.node_id) =
      some (⟨[0, 1, 0, 1], [4]⟩ : Tensor) ∧
    (∀ i < 4, ([0, 1, 0, 1] : List ℚ).getD i 0 =
      if ([-1, 2, -3, 4] : List ℚ).getD i 0 > 0 then (1 : ℚ) else 0) := by decide

/-- C8: the no-forward-reference invariant — every operand id in a node's
tag is strictly below the node's own id (= its index) — is preserved by
`add_node` whenever the tag's operands are already-recorded ids, and hence
by every Variable operation (which only ever passes the node ids of its
argument Variables). -/
theorem C8_dag_invariant :
    (∀ (g : Graph) (op : Op) (v : Tensor) (rg : Bool), wellFormed g →
        opValid op g.len → wellFormed (g.addNode op v rg).1) ∧
    (∀ (g : Graph) (d : Tensor) (rg : Bool), wellFormed g →
        wellFormed (Variable.new g d rg).1) ∧
    (∀ (g : Graph) (a b : Variable), wellFormed g → a.node_id < g.len →
        b.node_id < g.len → wellFormed (Variable.add g a b).1) ∧
    (∀ (g : Graph) (a b : Variable), wellFormed g → a.node_id < g.len →
        b.node_id < g.len → wellFormed (Variable.sub g a b).1) ∧
    (∀ (g : Graph) (a b : Variable), wellFormed g → a.node_id < g.len →
        b.node_id < g.len → wellFormed (Variable.mul g a b).1) ∧
    (∀ (g : Graph) (a b : Variable), wellFormed g → a.node_id < g.len →
        b.node_id < g.len → wellFormed (Variable.div g a b).1) ∧
    (∀ (g : Graph) (a b : Variable), wellFormed g → a.node_id < g.len →
        b.node_id < g.len → wellFormed (Variable.matmul g a b).1) ∧
    (∀ (g : Graph) (a : Variable), wellFormed g → a.node_id < g.len →
        wellFormed (Variable.neg g a).1) ∧
    (∀ (ro : RealOps) (g : Graph) (a : Variable), wellFormed g → a.node_id < g.len →
        wellFormed (Variable.vexp ro g a).1) ∧
    (∀ (ro : RealOps) (g : Graph) (a : Variable), wellFormed g → a.node_id < g.len →
        wellFormed (Variable.vln ro g a).1) ∧
    (∀ (g : Graph) (a : Variable), wellFormed g → a.node_id < g.len →
        wellFormed (Variable.relu g a).1) ∧
    (∀ (ro : RealOps) (g : Graph) (a : Variable), wellFormed g → a.node_id < g.len →
        wellFormed (Variable.sigmoid ro g a).1) ∧
    (∀ (ro : RealOps) (g : Graph) (a : Variable), wellFormed g → a.node_id < g.len →
        wellFormed (Variable.tanh_act ro g a).1) ∧
    (∀ (g : Graph) (a : Variable) (s : ℚ), wellFormed g → a.node_id < g.len →
        wellFormed (Variable.mul_scalar g a s).1) ∧
    (∀ (g : Graph) (a : Variable) (s : ℚ), wellFormed g → a.node_id < g.len →
        wellFormed (Variable.add_scalar g a s).1) ∧
    (∀ (g : Graph) (a : Variable), wellFormed g → a.node_id < g.len →
        wellFormed (Variable.sum g a).1) ∧
    (∀ (g : Graph) (a : Variable), wellFormed g → a.node_id < g.len →
        wellFormed (Variable.mean g a).1) ∧
    (∀ (g : Graph) (a : Variable), wellFormed g → a.node_id < g.len →
        wellFormed (Variable.vt g a).1) ∧
    (∀ (ro : RealOps) (g : Graph) (a : Variable) (n : ℚ), wellFormed g →
        a.node_id < g.len → wellFormed (Variable.pow ro g a n).1) :=
  ⟨addNode_wf, new_wf, add_wf, sub_wf, mul_wf, div_wf, matmul_wf, neg_wf, vexp_wf,
   vln_wf, relu_wf, sigmoid_wf, tanh_act_wf, mul_scalar_wf, add_scalar_wf, sum_wf,
   mean_wf, vt_wf, pow_wf⟩

/-- Witness for C8: adding a Variable to itself on a concrete well-formed
one-node graph preserves well-formedness. -/
theorem C8_dag_invariant_witness :
    wellFormed C8pipe.1 ∧ wellFormed (Variable.add C8pipe.1 C8pipe.2 C8pipe.2).1 :=
  ⟨by decide,
   C8_dag_invariant.2.2.1 C8pipe.1 C8pipe.2 C8pipe.2 (by decide) (by decide) (by decide)⟩

/-- C9: `Graph::get` at an id at or beyond the current length fails
loudly (models the `Vec` index panic) rather than returning any node. -/
theorem C9_get_out_of_range (g : Graph) (i : Nat) (h : g.len ≤ i) :
    g.get? i = none :=
  get?_none_of_le g i h

/-- Witness for C9 at a one-node graph and id 1. -/
theorem C9_get_out_of_range_witness :
    C9pipe.1.len ≤ 1 ∧ C9pipe.1.get? 1 = none :=
  ⟨by decide, C9_get_out_of_range C9pipe.1 1 (by decide)⟩

/-- C10 counterexample to the literal claim: with a [1]-shaped bias leaf
(node 0) broadcast-added to a [3]-shaped batch and summed, backward's
entry at node 0 is a 0-d tensor (shape []), not the recorded shape [1]:
the scalar branch of `reduce_broadcast` collapses to a 0-d tensor even
when the target shape is [1]. -/
theorem C10_shape_counterexample :
    (backward roZ C10G 3).bind (fun t => t 0) = some (⟨[3], []⟩ : Tensor) ∧
    (C10G.get? 0).map Node.shape = some [1] ∧
    (⟨[3], []⟩ : Tensor).shape ≠ [1] := by decide

/-- C10 amended: for every backward invocation that returns, every entry
at a non-loss id is shaped exactly as the node's recorded shape, except
that at a node whose recorded shape is [1] the entry may instead be the
0-d scalar shape [] (same element count) — every contribution does pass
through broadcast reduction to the operand's recorded shape. -/
theorem C10_grad_shapes_amended (ro : RealOps) (g : Graph) (lossId : Nat)
    (t : GradTable) (hb : backward ro g lossId = some t) :
    ∀ k tk, t k = some tk → k ≠ lossId →
      ∃ node, g.get? k = some node ∧
        (tk.shape = node.shape ∨ (node.shape = [1] ∧ tk.shape = [])) := by
  unfold backward at hb
  cases hl : g.get? lossId with
  | none =>
    rw [hl] at hb
    exact Option.noConfusion hb
  | some lnode =>
    rw [hl] at hb
    dsimp only at hb
    have hinit : QInv g (insertG emptyGrads lossId
        (if lnode.shape = [] ∨ lnode.shape = [1] then Tensor.scalar 1
         else Tensor.ones lnode.shape)) := by
      intro k tk hk
      by_cases hkL : k = lossId
      · subst hkL
        rw [insertG_same] at hk
        cases hk
        refine ⟨lnode, hl, ?_⟩
        by_cases hc : lnode.shape = [] ∨ lnode.shape = [1]
        · rw [if_pos hc]
          rcases hc with hc | hc
          · exact Or.inl hc.symm
          · exact Or.inr ⟨hc, rfl⟩
        · rw [if_neg hc]
          exact Or.inl rfl
      · rw [insertG_ne _ _ _ _ hkL] at hk
        exact Option.noConfusion hk
    have hQ := foldlM_option_preserve _ (QInv g)
      (fun b a b2 hQb hf => backwardStep_Q hQb hf) _ _ _ hinit hb
    intro k tk hk _
    exact hQ k tk hk

/-- Witness for the amended C10 on the concrete [1]+[3] scenario. -/
theorem C10_grad_shapes_amended_witness :
    ∃ t tk node, backward roZ C10G 3 = some t ∧ t 0 = some tk ∧
      C10G.get? 0 = some node ∧
      (tk.shape = node.shape ∨ (node.shape = [1] ∧ tk.shape = [])) := by
  have hs : (backward roZ C10G 3).isSome := by decide
  obtain ⟨t, ht⟩ := Option.isSome_iff_exists.mp hs
  have ht0 : t 0 = some (⟨[3], []⟩ : Tensor) := by
    have h2 : (backward roZ C10G 3).bind (fun u => u 0) = some (⟨[3], []⟩ : Tensor) := by
      decide
    rw [ht] at h2
    exact h2
  obtain ⟨node, hnode, hOK⟩ :=
    C10_grad_shapes_amended roZ C10G 3 t ht 0 _ ht0 (by decide)
  exact ⟨t, _, node, ht, ht0, hnode, hOK⟩

/-! ### Symbolic shape computations for the C6 broadcast round-trip -/

lemma bs_1N_BN (B N : Nat) (hB : B ≠ 1) :
    broadcastShape [1, N] [B, N] = some [B, N] := by
  have h1 : (1 : Nat) ≠ B := fun he => hB he.symm
  norm_num [broadcastShape, List.range_succ, List.getD, h1]

lemma sum_axis0_2d (t : Tensor) (B N : Nat) (ht : t.shape = [B, N]) :
    ∃ u, t.sum_axis 0 = some u ∧ u.shape = [N] := by
  unfold Tensor.sum_axis Tensor.new
  rw [ht]
  norm_num [numelS, List.eraseIdx]

lemma reduce_BN_1N (B N : Nat) (t : Tensor) (hB : 1 < B) (ht : t.shape = [B, N]) :
    ∃ r, reduce_broadcast t [1, N] = some r ∧ r.shape = [1, N] := by
  have hne : t.shape ≠ [1, N] := by
    rw [ht]
    intro hcon
    simp at hcon
    omega
  obtain ⟨u, hu, hus⟩ := sum_axis0_2d t B N ht
  have huns : u.unsqueeze 0 = some ⟨u.data, [1, N]⟩ := by
    unfold Tensor.unsqueeze
    rw [hus]
    norm_num [List.insertIdx]
  have hnd : t.ndim - ([1, N] : Sh).length = 0 := by
    simp [Tensor.ndim, ht]
  have hloop : axisReduceLoop (t.shape.zip [1, N]) 0 t = some ⟨u.data, [1, N]⟩ := by
    rw [ht]
    show (if ((1 : Nat) = 1 ∧ B > 1) then
        ((t.sum_axis 0).bind (fun v => v.unsqueeze 0)).bind (axisReduceLoop [(N, N)] 1)
      else axisReduceLoop [(N, N)] 1 t) = some ⟨u.data, [1, N]⟩
    rw [if_pos ⟨rfl, hB⟩, hu, Option.some_bind, huns, Option.some_bind]
    show (if (N = 1 ∧ N > 1) then
        (((⟨u.data, [1, N]⟩ : Tensor).sum_axis 1).bind (fun v => v.unsqueeze 1)).bind
          (axisReduceLoop [] 2)
      else axisReduceLoop [] 2 ⟨u.data, [1, N]⟩) = some ⟨u.data, [1, N]⟩
    rw [if_neg (by omega)]
    rfl
  refine ⟨⟨u.data, [1, N]⟩, ?_, rfl⟩
  unfold reduce_broadcast
  rw [if_neg hne, if_neg (by simp : ¬(([1, N] : Sh) = [] ∨ ([1, N] : Sh) = [1])), hnd]
  show (sumLeading 0 t).bind (fun r1 =>
    (axisReduceLoop (r1.shape.zip [1, N]) 0 r1).bind
      (fun r2 => some (finalReshape r2 [1, N]))) = some ⟨u.data, [1, N]⟩
  rw [show sumLeading 0 t = some t from rfl, Option.some_bind, hloop, Option.some_bind]
  unfold finalReshape
  rw [if_pos rfl]

/-- C6: for every [1,N]-shaped bias tensor and [B,N]-shaped batch tensor
with B > 1, recording the two leaves, adding them (broadcast to [B,N]) and
summing to a scalar loss, backward succeeds and the gradient table entry
at the bias node has shape [1,N] — the incoming [B,N] gradient is summed
over the broadcast batch axis before accumulation, never left at [B,N]. -/
theorem C6_bias_broadcast_reduction (ro : RealOps) (B N : Nat) (tb tx : Tensor)
    (hB : 1 < B) (htb : tb.shape = [1, N]) (htx : tx.shape = [B, N]) :
    ∃ g3 v g4 loss table gr,
      Variable.add (Variable.new (Variable.new Graph.new tb true).1 tx true).1
          (Variable.new Graph.new tb true).2
          (Variable.new (Variable.new Graph.new tb true).1 tx true).2 = (g3, some v) ∧
      Variable.sum g3 v = (g4, loss) ∧
      backward ro g4 loss.node_id = some table ∧
      table (Variable.new Graph.new tb true).2.node_id = some gr ∧
      gr.shape = [1, N] := by
  obtain ⟨tbd, tbs⟩ := tb
  obtain ⟨txd, txs⟩ := tx
  have htb2 : tbs = [1, N] := htb
  have htx2 : txs = [B, N] := htx
  subst htb2
  subst htx2
  have hBne : B ≠ 1 := by omega
  have hne : (⟨tbd, [1, N]⟩ : Tensor).shape ≠ (⟨txd, [B, N]⟩ : Tensor).shape := by
    show ([1, N] : Sh) ≠ [B, N]
    intro hcon
    simp at hcon
    omega
  obtain ⟨z, hz, hzs⟩ := tadd_bcast hne (bs_1N_BN B N hBne)
  obtain ⟨zd, zs⟩ := z
  have hzs2 : zs = [B, N] := hzs
  subst hzs2
  -- the recorded graph after add and sum
  have eadd : Variable.add
      (⟨[⟨0, Op.Leaf, [1, N], ⟨tbd, [1, N]⟩, true⟩,
         ⟨1, Op.Leaf, [B, N], ⟨txd, [B, N]⟩, true⟩]⟩ : Graph)
      ⟨0, ⟨tbd, [1, N]⟩⟩ ⟨1, ⟨txd, [B, N]⟩⟩ =
      (⟨[⟨0, Op.Leaf, [1, N], ⟨tbd, [1, N]⟩, true⟩,
         ⟨1, Op.Leaf, [B, N], ⟨txd, [B, N]⟩, true⟩,
         ⟨2, Op.Add 0 1, [B, N], ⟨zd, [B, N]⟩, true⟩]⟩,
       some ⟨2, ⟨zd, [B, N]⟩⟩) := by
    unfold Variable.add
    dsimp only
    rw [hz]
    rfl
  -- tables of the backward trace
  set G4 : Graph :=
    ⟨[⟨0, Op.Leaf, [1, N], ⟨tbd, [1, N]⟩, true⟩,
      ⟨1, Op.Leaf, [B, N], ⟨txd, [B, N]⟩, true⟩,
      ⟨2, Op.Add 0 1, [B, N], ⟨zd, [B, N]⟩, true⟩,
      ⟨3, Op.SumAll 2, [], Tensor.scalar (Tensor.sum_all ⟨zd, [B, N]⟩), true⟩]⟩
    with hG4
  set T0 : GradTable := insertG emptyGrads 3 (Tensor.scalar 1) with hT0
  set ga : Tensor := (Tensor.ones [B, N]).mul_scalar 1 with hga
  set T1 : GradTable := insertG T0 2 ga with hT1
  obtain ⟨r, hred, hrs⟩ := reduce_BN_1N B N ga hB rfl
  set T2 : GradTable := insertG T1 0 r with hT2
  set T3 : GradTable := insertG T2 1 ga with hT3
  have st3 : backwardStep ro G4 T0 3 = some T1 := by
    show accumulate_grad T0 2 ga [B, N] = some T1
    exact accumulate_or_insert T0 2 ga ga [B, N] rfl (reduce_broadcast_refl ga [B, N] rfl)
  have st2 : backwardStep ro G4 T1 2 = some T3 := by
    show (accumulate_grad T1 0 ga [1, N]).bind
      (fun g1 => accumulate_grad g1 1 ga [B, N]) = some T3
    rw [accumulate_or_insert T1 0 ga r [1, N] rfl hred, Option.some_bind]
    exact accumulate_or_insert T2 1 ga ga [B, N] rfl (reduce_broadcast_refl ga [B, N] rfl)
  have st1 : backwardStep ro G4 T3 1 = some T3 := rfl
  have st0 : backwardStep ro G4 T3 0 = some T3 := rfl
  have hback : backward ro G4 3 = some T3 := by
    show List.foldlM (fun gr idx => backwardStep ro G4 gr idx) T0 [3, 2, 1, 0] = some T3
    rw [foldlM_option_cons]
    rw [st3, Option.some_bind, foldlM_option_cons]
    rw [st2, Option.some_bind, foldlM_option_cons]
    rw [st1, Option.some_bind, foldlM_option_cons]
    rw [st0, Option.some_bind]
    rfl
  exact ⟨_, _, G4, ⟨3, Tensor.scalar (Tensor.sum_all ⟨zd, [B, N]⟩)⟩, T3, r,
    eadd, rfl, hback, rfl, hrs⟩

/-- Witness for C6 at B = 2, N = 3 with concrete data. -/
theorem C6_bias_broadcast_reduction_witness :
    ∃ g3 v g4 loss table gr,
      Variable.add C6pipe2.1 C6pipe1.2 C6pipe2.2 = (g3, some v) ∧
      Variable.sum g3 v = (g4, loss) ∧
      backward roZ g4 loss.node_id = some table ∧
      table C6pipe1.2.node_id = some gr ∧
      gr.shape = [1, 3] :=
  C6_bias_broadcast_reduction roZ 2 3 ⟨[1, 2, 3], [1, 3]⟩ ⟨[1, 1, 1, 1, 1, 1], [2, 3]⟩
    (by decide) rfl rfl

end OxML
